import Mathlib

/-! Verification development for the QuantumQuake earthquake-risk repository.

The statevector engine, the two circuit programs (`inference.py`'s 5-qubit
variational classifier and `apps/quantum/main.py`'s 4-qubit anomaly scorer),
the seismicity feature pipeline and the risk-scoring orchestrator are
shallowly embedded from the Python source.  The only gates used are RY and
CNOT, whose matrices are real, so the amplitudes of every reachable state are
real numbers; a state is modelled as a real-valued amplitude function indexed
by assignments of the qubit bits. -/

namespace QuantumQuake

/-- A quantum state over `n` qubits: one (real) amplitude per assignment of
the `n` qubit bits.  Models PennyLane's / Qiskit's statevector. -/
def QState (n : ℕ) : Type := (Fin n → Bool) → ℝ

/-- The initial basis state `|0...0⟩`: amplitude 1 on the all-false
assignment, 0 elsewhere. -/
def init (n : ℕ) : QState n := fun b => if b = (fun _ => false) then 1 else 0

/-- Squared norm of a state (sum of squared amplitudes). -/
noncomputable def normSq {n : ℕ} (v : QState n) : ℝ :=
  ∑ b : Fin n → Bool, v b ^ 2

/-- Applies the real rotation matrix `[[c, -s], [s, c]]` to the 2-dimensional
subspace of qubit `q`; with `c = cos (θ/2)`, `s = sin (θ/2)` this is RY(θ). -/
def applyRYcs {n : ℕ} (c s : ℝ) (q : Fin n) (v : QState n) : QState n := fun b =>
  if b q then s * v (Function.update b q false) + c * v (Function.update b q true)
  else c * v (Function.update b q false) - s * v (Function.update b q true)

/-- The RY gate on qubit `q` with angle `θ` (matrix
`[[cos(θ/2), -sin(θ/2)], [sin(θ/2), cos(θ/2)]]`), as applied by
`qml.RY(θ, wires=q)` and `qc.ry(θ, q)`. -/
noncomputable def applyRY {n : ℕ} (θ : ℝ) (q : Fin n) (v : QState n) : QState n :=
  applyRYcs (Real.cos (θ / 2)) (Real.sin (θ / 2)) q v

/-- CNOT with control `cq` and target `t`: where the control bit is set, the
amplitude is fetched from the assignment with the target bit flipped. -/
def applyCNOT {n : ℕ} (cq t : Fin n) (v : QState n) : QState n := fun b =>
  if b cq then v (Function.update b t (!b t)) else v b

/-- Analytic Pauli-Z expectation of qubit `q`: probability-weighted sum of
`+1` (bit clear) and `-1` (bit set), i.e. `qml.expval(qml.PauliZ q)`. -/
noncomputable def expZ {n : ℕ} (q : Fin n) (v : QState n) : ℝ :=
  ∑ b : Fin n → Bool, v b ^ 2 * (if b q then -1 else 1)

/-- The partner assignment differing from `b` exactly at qubit `q`. -/
def flipAt {n : ℕ} (q : Fin n) (b : Fin n → Bool) : Fin n → Bool :=
  Function.update b q (!b q)

theorem flipAt_involutive {n : ℕ} (q : Fin n) : Function.Involutive (flipAt q) := by
  intro b
  funext i
  rcases eq_or_ne i q with rfl | hi
  · simp [flipAt]
  · simp [flipAt, Function.update_noteq hi]

/-- Splitting a sum over all bit assignments into sums over the pairs that
differ only at qubit `q`. -/
theorem sum_split {n : ℕ} (q : Fin n) (F : (Fin n → Bool) → ℝ) :
    ∑ b : Fin n → Bool, F b
      = ∑ b : Fin n → Bool, (if b q then F b + F (Function.update b q false) else 0) := by
  have h1 : ∀ b : Fin n → Bool,
      F b = (if b q then F b else 0) + (if b q then 0 else F b) := by
    intro b; cases h : b q <;> simp [h]
  calc ∑ b : Fin n → Bool, F b
      = ∑ b : Fin n → Bool, ((if b q then F b else 0) + (if b q then 0 else F b)) :=
        Finset.sum_congr rfl (fun b _ => h1 b)
    _ = (∑ b : Fin n → Bool, (if b q then F b else 0))
        + ∑ b : Fin n → Bool, (if b q then 0 else F b) := Finset.sum_add_distrib
    _ = (∑ b : Fin n → Bool, (if b q then F b else 0))
        + ∑ b : Fin n → Bool, (if b q then F (Function.update b q false) else 0) := by
        congr 1
        rw [← Equiv.sum_comp (Function.Involutive.toPerm (flipAt q) (flipAt_involutive q))
              (fun b => if b q then 0 else F b)]
        apply Finset.sum_congr rfl
        intro b _
        cases h : b q <;>
          simp [flipAt, h, Function.Involutive.coe_toPerm, Function.Involutive.toPerm]
    _ = ∑ b : Fin n → Bool, (if b q then F b + F (Function.update b q false) else 0) := by
        rw [← Finset.sum_add_distrib]
        apply Finset.sum_congr rfl
        intro b _
        cases h : b q <;> simp [h]

theorem normSq_applyRYcs {n : ℕ} (c s : ℝ) (hcs : c ^ 2 + s ^ 2 = 1) (q : Fin n)
    (v : QState n) : normSq (applyRYcs c s q v) = normSq v := by
  unfold normSq
  rw [sum_split q (fun b => applyRYcs c s q v b ^ 2), sum_split q (fun b => v b ^ 2)]
  apply Finset.sum_congr rfl
  intro b _
  cases h : b q
  · simp [h]
  · have hupd : Function.update b q true = b := by
      funext i
      rcases eq_or_ne i q with rfl | hi
      · simp [h]
      · simp [Function.update_noteq hi]
    simp only [h, if_true, applyRYcs, Function.update_same, Function.update_idem,
      Bool.false_eq_true, if_false, hupd]
    linear_combination (v (Function.update b q false) ^ 2 + v b ^ 2) * hcs

theorem normSq_applyRY {n : ℕ} (θ : ℝ) (q : Fin n) (v : QState n) :
    normSq (applyRY θ q v) = normSq v :=
  normSq_applyRYcs _ _ (Real.cos_sq_add_sin_sq (θ / 2)) q v

/-- CNOT as a permutation of basis assignments. -/
def cnotMap {n : ℕ} (cq t : Fin n) (b : Fin n → Bool) : Fin n → Bool :=
  if b cq then Function.update b t (!b t) else b

theorem cnotMap_involutive {n : ℕ} (cq t : Fin n) (h : cq ≠ t) :
    Function.Involutive (cnotMap cq t) := by
  intro b
  cases hc : b cq
  · simp [cnotMap, hc]
  · have h1 : (Function.update b t (!b t)) cq = true := by
      rw [Function.update_noteq h]; exact hc
    simp [cnotMap, hc, h1, Function.update_idem, Bool.not_not, Function.update_eq_self]

theorem applyCNOT_eq_comp {n : ℕ} (cq t : Fin n) (v : QState n) :
    applyCNOT cq t v = fun b => v (cnotMap cq t b) := by
  funext b
  cases hc : b cq <;> simp [applyCNOT, cnotMap, hc]

theorem normSq_applyCNOT {n : ℕ} (cq t : Fin n) (h : cq ≠ t) (v : QState n) :
    normSq (applyCNOT cq t v) = normSq v := by
  rw [applyCNOT_eq_comp]
  unfold normSq
  simpa [Function.Involutive.toPerm] using
    Equiv.sum_comp (Function.Involutive.toPerm (cnotMap cq t) (cnotMap_involutive cq t h))
      (fun b => v b ^ 2)

theorem normSq_init (n : ℕ) : normSq (init n) = 1 := by
  unfold normSq init
  have h : ∀ b : Fin n → Bool,
      (if b = (fun _ => false) then (1 : ℝ) else 0) ^ 2
        = if b = (fun _ => false) then 1 else 0 := by
    intro b; split <;> norm_num
  rw [Finset.sum_congr rfl (fun b _ => h b)]
  simp [Finset.sum_ite_eq']

theorem expZ_le_normSq {n : ℕ} (q : Fin n) (v : QState n) : expZ q v ≤ normSq v := by
  apply Finset.sum_le_sum
  intro b _
  cases h : b q
  · simp [h]
  · simpa [h] using neg_le_self (sq_nonneg (v b))

theorem neg_normSq_le_expZ {n : ℕ} (q : Fin n) (v : QState n) :
    -normSq v ≤ expZ q v := by
  unfold expZ normSq
  rw [← Finset.sum_neg_distrib]
  apply Finset.sum_le_sum
  intro b _
  cases h : b q
  · simpa [h] using neg_le_self (sq_nonneg (v b))
  · simp [h]

/-! ### Classifier mode (`inference.py`): 5-qubit variational circuit -/

/-- Encoding layer `encode(features)`: `qml.RY(features[i], wires=i)` for `i` in `0..4`,
raw feature value as angle (no π scaling). -/
noncomputable def encode (f : Fin 5 → ℝ) (v : QState 5) : QState 5 :=
  applyRY (f 4) 4 (applyRY (f 3) 3 (applyRY (f 2) 2 (applyRY (f 1) 1
    (applyRY (f 0) 0 v))))

/-- Circuit layer `layer(weights)`: `qml.CNOT(wires=[i, i+1])` for `i` in `0..3`, then
`qml.RY(weights[i], wires=i)` for `i` in `0..4`. -/
noncomputable def layer (w : Fin 5 → ℝ) (v : QState 5) : QState 5 :=
  applyRY (w 4) 4 (applyRY (w 3) 3 (applyRY (w 2) 2 (applyRY (w 1) 1
    (applyRY (w 0) 0
      (applyCNOT 3 4 (applyCNOT 2 3 (applyCNOT 1 2 (applyCNOT 0 1 v))))))))

/-- The qnode `circuit(features, weights)`: encode, then one `layer` per weight row (the
trained artifact has 3 rows), returning `qml.expval(qml.PauliZ(0))`. -/
noncomputable def circuit (f : Fin 5 → ℝ) (w : Fin 3 → Fin 5 → ℝ) : ℝ :=
  expZ 0 (layer (w 2) (layer (w 1) (layer (w 0) (encode f (init 5)))))

/-- The derived `prob = (1 - circuit(X_scaled[i], weights)) / 2` in `run_inference`. -/
noncomputable def riskProbability (f : Fin 5 → ℝ) (w : Fin 3 → Fin 5 → ℝ) : ℝ :=
  (1 - circuit f w) / 2

theorem normSq_encode (f : Fin 5 → ℝ) (v : QState 5) :
    normSq (encode f v) = normSq v := by
  unfold encode
  simp only [normSq_applyRY]

theorem normSq_layer (w : Fin 5 → ℝ) (v : QState 5) :
    normSq (layer w v) = normSq v := by
  unfold layer
  simp only [normSq_applyRY]
  rw [normSq_applyCNOT 3 4 (by decide), normSq_applyCNOT 2 3 (by decide),
    normSq_applyCNOT 1 2 (by decide), normSq_applyCNOT 0 1 (by decide)]

theorem circuit_bounds (f : Fin 5 → ℝ) (w : Fin 3 → Fin 5 → ℝ) :
    -1 ≤ circuit f w ∧ circuit f w ≤ 1 := by
  have hn : normSq (layer (w 2) (layer (w 1) (layer (w 0) (encode f (init 5))))) = 1 := by
    rw [normSq_layer, normSq_layer, normSq_layer, normSq_encode, normSq_init]
  constructor
  · have h := neg_normSq_le_expZ (0 : Fin 5)
      (layer (w 2) (layer (w 1) (layer (w 0) (encode f (init 5)))))
    rw [hn] at h
    exact h
  · have h := expZ_le_normSq (0 : Fin 5)
      (layer (w 2) (layer (w 1) (layer (w 0) (encode f (init 5)))))
    rw [hn] at h
    exact h

/-- C1: classifier-mode evaluation encodes the 5 standardized features as
`RY(f_i)` on qubit `i` (raw value, no π scaling), applies 3 layers of
`CNOT(i, i+1)` for `i` in `0..3` followed by `RY(w_layer[i])` on every qubit,
returns the analytic Pauli-Z expectation of qubit 0, and the derived
`risk_probability = (1 - expectation) / 2` lies in `[0, 1]`. -/
theorem classifier_circuit_spec (f : Fin 5 → ℝ) (w : Fin 3 → Fin 5 → ℝ) :
    circuit f w
        = expZ 0 (layer (w 2) (layer (w 1) (layer (w 0) (encode f (init 5))))) ∧
    encode f (init 5)
        = applyRY (f 4) 4 (applyRY (f 3) 3 (applyRY (f 2) 2 (applyRY (f 1) 1
            (applyRY (f 0) 0 (init 5))))) ∧
    (∀ (wl : Fin 5 → ℝ) (v : QState 5),
      layer wl v
        = applyRY (wl 4) 4 (applyRY (wl 3) 3 (applyRY (wl 2) 2 (applyRY (wl 1) 1
            (applyRY (wl 0) 0
              (applyCNOT 3 4 (applyCNOT 2 3 (applyCNOT 1 2 (applyCNOT 0 1 v))))))))) ∧
    riskProbability f w = (1 - circuit f w) / 2 ∧
    0 ≤ riskProbability f w ∧ riskProbability f w ≤ 1 := by
  obtain ⟨hlo, hhi⟩ := circuit_bounds f w
  refine ⟨rfl, rfl, fun _ _ => rfl, rfl, ?_, ?_⟩
  · unfold riskProbability; linarith
  · unfold riskProbability; linarith

/-! ### Anomaly-score mode (`apps/quantum/main.py`): 4-qubit sampled circuit -/

/-- The length guard at the top of `_quantum_anomaly_score`: a feature vector
of length other than 4 raises `ValueError`; otherwise the 4 features are
read off in order. -/
def anomalyCheck (fs : List ℝ) : Except String (Fin 4 → ℝ) :=
  if h : fs.length = 4 then Except.ok (fun i => fs.get (Fin.cast h.symm i))
  else Except.error ("Each feature vector must contain exactly 4 values.")

/-- Anomaly encoding `qc.ry(f * np.pi, i)` for each feature: RY with angle `f_i * π`. -/
noncomputable def encodeAnomaly (f : Fin 4 → ℝ) (v : QState 4) : QState 4 :=
  applyRY (f 3 * Real.pi) 3 (applyRY (f 2 * Real.pi) 2 (applyRY (f 1 * Real.pi) 1
    (applyRY (f 0 * Real.pi) 0 v)))

/-- The anomaly circuit's pre-measurement state: the π-scaled RY encoding
followed by `qc.cx(i, i+1)` for `i` in `0..2`, starting from `|0000⟩`. -/
noncomputable def anomalyState (f : Fin 4 → ℝ) : QState 4 :=
  applyCNOT 2 3 (applyCNOT 1 2 (applyCNOT 0 1 (encodeAnomaly f (init 4))))

/-- Shot count of `simulator.run(qc, shots=1000)`: the fixed shot count. -/
def shots : ℕ := 1000

/-- The all-ones measurement outcome, i.e. the bitstring `"1111"`. -/
def allOnes : Fin 4 → Bool := fun _ => true

/-- Score postprocessing `counts.get("1111", 0) / 1000.0`: the observed count of the all-ones
bitstring among the sampled outcomes, divided by the shot count. -/
def scoreOfSamples (samples : List (Fin 4 → Bool)) : ℚ :=
  (samples.count allOnes : ℚ) / shots

/-- Models `_quantum_anomaly_score`: validate the vector length, then return the
all-ones frequency of the simulator's sampled outcomes (the random draw of
the 1000 shots is passed explicitly as `samples`). -/
def quantumAnomalyScore (fs : List ℝ) (samples : List (Fin 4 → Bool)) :
    Except String ℚ :=
  (anomalyCheck fs).map (fun _ => scoreOfSamples samples)

/-! ### Feature access of the classifier's `encode` on a raw list -/

/-- Python indexing `features[i]` for `i` in `0..4` inside `encode`
(`inference.py`): succeeds with the first five entries when at least five are
present (entries beyond the fifth are never read), raises `IndexError`
(modelled as `none`) otherwise.  There is no length validation. -/
def encodeChecked (fs : List ℝ) : Option (Fin 5 → ℝ) :=
  if h : 5 ≤ fs.length then some (fun i => fs.get (Fin.castLE h i)) else none

/-- Classifier-mode evaluation on a raw feature list: read the features the
way `encode` indexes them, then run the circuit. -/
noncomputable def circuitChecked (fs : List ℝ) (w : Fin 3 → Fin 5 → ℝ) : Option ℝ :=
  (encodeChecked fs).map (fun f => circuit f w)

/-- C2 counterexample: a 6-element feature vector does not match the
classifier's 5-qubit register, yet the classifier-mode evaluation succeeds —
it silently ignores the sixth entry instead of signalling a validation
error. -/
theorem classifier_truncates_long_vector :
    (circuitChecked [0, 0, 0, 0, 0, 0] (fun _ _ => 0)).isSome = true ∧
    circuitChecked [0, 0, 0, 0, 0, 0] (fun _ _ => 0)
      = circuitChecked [0, 0, 0, 0, 0] (fun _ _ => 0) := by
  have h6 : (5 : ℕ) ≤ ([0, 0, 0, 0, 0, 0] : List ℝ).length := by simp
  have h5 : (5 : ℕ) ≤ ([0, 0, 0, 0, 0] : List ℝ).length := by simp
  have hf : (fun i : Fin 5 => ([0, 0, 0, 0, 0, 0] : List ℝ).get (Fin.castLE h6 i))
      = fun i : Fin 5 => ([0, 0, 0, 0, 0] : List ℝ).get (Fin.castLE h5 i) := by
    funext i
    fin_cases i <;> rfl
  constructor
  · simp [circuitChecked, encodeChecked]
  · simp only [circuitChecked, encodeChecked, dif_pos h6, dif_pos h5,
      Option.map_some', hf]

/-- C2 (amended): the anomaly-score endpoint rejects any feature vector whose
length is not 4 with a validation error and accepts length-4 vectors; the
classifier-mode evaluation fails (an index error, `none`) when fewer than 5
features are supplied, but it silently uses only the first 5 entries — no
error — when given 5 or more. -/
theorem length_validation_spec (fs : List ℝ) (samples : List (Fin 4 → Bool))
    (w : Fin 3 → Fin 5 → ℝ) :
    (fs.length ≠ 4 → quantumAnomalyScore fs samples
        = Except.error ("Each feature vector must contain exactly 4 values.")) ∧
    (fs.length = 4 →
      quantumAnomalyScore fs samples = Except.ok (scoreOfSamples samples)) ∧
    (fs.length < 5 → circuitChecked fs w = none) ∧
    (∀ rest : List ℝ, 5 ≤ fs.length →
      circuitChecked (fs ++ rest) w = circuitChecked (fs.take 5) w) := by
  refine ⟨?_, ?_, ?_, ?_⟩
  · intro h
    simp [quantumAnomalyScore, anomalyCheck, h, Except.map]
  · intro h
    simp [quantumAnomalyScore, anomalyCheck, h, Except.map]
  · intro h
    simp [circuitChecked, encodeChecked, Nat.not_le.mpr h]
  · intro rest h
    have hlen : 5 ≤ (fs ++ rest).length := by
      rw [List.length_append]; omega
    have hlen2 : 5 ≤ (fs.take 5).length := by
      rw [List.length_take]; omega
    have hf : (fun i : Fin 5 => (fs ++ rest).get (Fin.castLE hlen i))
        = fun i : Fin 5 => (fs.take 5).get (Fin.castLE hlen2 i) := by
      funext i
      have hi : (i : ℕ) < fs.length := lt_of_lt_of_le i.isLt h
      rw [List.get_eq_getElem, List.get_eq_getElem]
      simp only [Fin.coe_castLE]
      rw [List.getElem_append_left hi, List.getElem_take]
    simp only [circuitChecked, encodeChecked, dif_pos hlen, dif_pos hlen2,
      Option.map_some', hf]

/-- Witness for `length_validation_spec` at concrete wrong-length inputs. -/
theorem length_validation_spec_witness :
    quantumAnomalyScore [0, 0, 0] []
        = Except.error ("Each feature vector must contain exactly 4 values.") ∧
    circuitChecked [0, 0] (fun _ _ => 0) = none :=
  ⟨(length_validation_spec [0, 0, 0] [] (fun _ _ => 0)).1 (by norm_num),
   (length_validation_spec [0, 0] [] (fun _ _ => 0)).2.2.1 (by norm_num)⟩

/-- C3: the anomaly-score evaluation applies `RY(f_i·π)` to qubit `i` for `i`
in `0..3`, then `CNOT(i, i+1)` for `i` in `0..2`, measures all 4 qubits over
exactly 1000 shots, and returns the observed count of `"1111"` divided by
1000 — a score in `[0,1]` in steps of `1/1000`, equal to `0` whenever
`"1111"` is never observed. -/
theorem anomaly_score_spec (f : Fin 4 → ℝ) (samples : List (Fin 4 → Bool))
    (h : samples.length = shots) :
    anomalyState f
        = applyCNOT 2 3 (applyCNOT 1 2 (applyCNOT 0 1 (encodeAnomaly f (init 4)))) ∧
    encodeAnomaly f (init 4)
        = applyRY (f 3 * Real.pi) 3 (applyRY (f 2 * Real.pi) 2
            (applyRY (f 1 * Real.pi) 1 (applyRY (f 0 * Real.pi) 0 (init 4)))) ∧
    scoreOfSamples samples = (samples.count allOnes : ℚ) / 1000 ∧
    0 ≤ scoreOfSamples samples ∧ scoreOfSamples samples ≤ 1 ∧
    (samples.count allOnes = 0 → scoreOfSamples samples = 0) ∧
    (∃ k : ℕ, k ≤ 1000 ∧ scoreOfSamples samples = (k : ℚ) / 1000) := by
  have hcount : samples.count allOnes ≤ 1000 := by
    have := List.count_le_length allOnes samples
    rw [h] at this
    exact this
  refine ⟨rfl, rfl, rfl, ?_, ?_, ?_, ?_⟩
  · exact div_nonneg (by positivity) (by norm_num)
  · rw [scoreOfSamples, div_le_one (by norm_num [shots])]
    exact_mod_cast hcount
  · intro h0
    simp [scoreOfSamples, h0]
  · exact ⟨samples.count allOnes, hcount, rfl⟩

/-- Witness for `anomaly_score_spec` at a concrete 1000-shot sample list. -/
theorem anomaly_score_spec_witness :
    0 ≤ scoreOfSamples (List.replicate 1000 allOnes) ∧
    scoreOfSamples (List.replicate 1000 allOnes) ≤ 1 :=
  ⟨(anomaly_score_spec (fun _ => 0) (List.replicate 1000 allOnes)
      (List.length_replicate 1000 allOnes)).2.2.2.1,
   (anomaly_score_spec (fun _ => 0) (List.replicate 1000 allOnes)
      (List.length_replicate 1000 allOnes)).2.2.2.2.1⟩

/-! ### b-value estimation (`b_value` in `inference.py` and `main.py`) -/

/-- Aki estimator `b_value(mags, m_min=3.0)`: keep only magnitudes ≥ 3.0, return NaN
(modelled as `none`) when fewer than 5 qualify, else
`np.log10(np.e) / (mean - 3.0)`.  Magnitudes are rationals; real division is
total, so the zero-denominator case yields a value (numpy yields `inf`)
rather than raising. -/
noncomputable def b_value (mags : List ℚ) : Option ℝ :=
  if (mags.filter (fun m => decide ((3 : ℚ) ≤ m))).length < 5 then none
  else some (Real.logb 10 (Real.exp 1) /
    ((((mags.filter (fun m => decide ((3 : ℚ) ≤ m))).sum
        / ((mags.filter (fun m => decide ((3 : ℚ) ≤ m))).length : ℚ) : ℚ) : ℝ) - 3))

theorem log_ten_gt : (2.30257 : ℝ) < Real.log 10 := by
  have h2 := Real.log_two_gt_d9
  have hpow : (2 : ℝ) ^ (485 : ℕ) < 10 ^ (146 : ℕ) := by norm_num
  have h1 : Real.log ((2 : ℝ) ^ (485 : ℕ)) < Real.log ((10 : ℝ) ^ (146 : ℕ)) :=
    Real.log_lt_log (by positivity) hpow
  rw [Real.log_pow, Real.log_pow] at h1
  push_cast at h1
  linarith

theorem log_ten_lt : Real.log 10 < 2.30266 := by
  have h2 := Real.log_two_lt_d9
  have hpow : (10 : ℝ) ^ (59 : ℕ) < 2 ^ (196 : ℕ) := by norm_num
  have h1 : Real.log ((10 : ℝ) ^ (59 : ℕ)) < Real.log ((2 : ℝ) ^ (196 : ℕ)) :=
    Real.log_lt_log (by positivity) hpow
  rw [Real.log_pow, Real.log_pow] at h1
  push_cast at h1
  linarith

/-- C4: the b-value computation keeps only magnitudes ≥ 3.0; with fewer than
5 qualifying magnitudes it is undefined (NaN); otherwise it equals
`log10(e) / (mean - 3.0)`.  For `[3,3,4,4,5]` the value is ≈ 0.5429
(strictly between 0.5428 and 0.5429), and for `[3,3,3,3,3]` (filtered mean
exactly 3.0, zero denominator) it still yields a defined value instead of
crashing. -/
theorem b_value_spec (mags : List ℚ) :
    ((mags.filter (fun m => decide ((3 : ℚ) ≤ m))).length < 5 →
      b_value mags = none) ∧
    (5 ≤ (mags.filter (fun m => decide ((3 : ℚ) ≤ m))).length →
      b_value mags = some (Real.logb 10 (Real.exp 1) /
        ((((mags.filter (fun m => decide ((3 : ℚ) ≤ m))).sum
            / ((mags.filter (fun m => decide ((3 : ℚ) ≤ m))).length : ℚ) : ℚ) : ℝ)
          - 3))) ∧
    (∃ x : ℝ, b_value [3, 3, 4, 4, 5] = some x ∧ 0.5428 < x ∧ x < 0.5429) ∧
    (b_value [3, 3, 3, 3, 3]).isSome = true := by
  have hlog : (0 : ℝ) < Real.log 10 := lt_trans (by norm_num) log_ten_gt
  refine ⟨?_, ?_, ?_, ?_⟩
  · intro h
    rw [b_value, if_pos h]
  · intro h
    rw [b_value, if_neg (by omega)]
  · have hfil : ([3, 3, 4, 4, 5] : List ℚ).filter (fun m => decide ((3 : ℚ) ≤ m))
        = [3, 3, 4, 4, 5] := by decide
    refine ⟨5 / (4 * Real.log 10), ?_, ?_, ?_⟩
    · rw [b_value, hfil]
      rw [if_neg (by simp)]
      congr 1
      rw [Real.logb, Real.log_exp]
      have hsum : ([3, 3, 4, 4, 5] : List ℚ).sum = 19 := by
        norm_num [List.sum_cons, List.sum_nil]
      rw [hsum]
      have hlen : (([3, 3, 4, 4, 5] : List ℚ).length : ℚ) = 5 := by norm_num
      rw [hlen]
      have hc : (((19 / 5 : ℚ) : ℝ)) - 3 = 4 / 5 := by
        push_cast
        norm_num
      rw [hc]
      have hne : Real.log 10 ≠ 0 := ne_of_gt hlog
      field_simp
      ring
  -- the remaining goals: the numeric bounds and the zero-denominator case
    · rw [lt_div_iff₀ (by positivity)]
      nlinarith [log_ten_lt]
    · rw [div_lt_iff₀ (by positivity)]
      nlinarith [log_ten_gt]
  · have hfil : ([3, 3, 3, 3, 3] : List ℚ).filter (fun m => decide ((3 : ℚ) ≤ m))
        = [3, 3, 3, 3, 3] := by decide
    rw [b_value, hfil, if_neg (by simp)]
    rfl

/-- Witness for `b_value_spec`: a list with fewer than five qualifying
magnitudes is undefined, and the zero-denominator list is still defined. -/
theorem b_value_spec_witness :
    b_value [4] = none ∧ (b_value [3, 3, 3, 3, 3]).isSome = true :=
  ⟨(b_value_spec [4]).1 (by decide), (b_value_spec []).2.2.2⟩

/-! ### Risk tier thresholds (`run_inference`, `inference.py` line 148) -/

/-- Risk tier `risk = "high" if prob > 0.7 else "moderate" if prob > 0.4 else "low"`. -/
noncomputable def riskLevel (prob : ℝ) : String :=
  if prob > 0.7 then "high" else if prob > 0.4 then "moderate" else "low"

/-- C5: the risk tier is `"high"` exactly when `p > 0.7`, `"moderate"`
exactly when `0.4 < p ≤ 0.7`, and `"low"` otherwise (`p ≤ 0.4`); the
comparisons are strict, so `p = 0.7` yields `"moderate"` and `p = 0.4`
yields `"low"`. -/
theorem risk_level_spec (p : ℝ) :
    (riskLevel p = "high" ↔ 0.7 < p) ∧
    (riskLevel p = "moderate" ↔ 0.4 < p ∧ p ≤ 0.7) ∧
    (riskLevel p = "low" ↔ p ≤ 0.4) ∧
    riskLevel (0.7 : ℝ) = "moderate" ∧
    riskLevel (0.4 : ℝ) = "low" := by
  have hb1 : riskLevel (0.7 : ℝ) = "moderate" := by
    unfold riskLevel
    rw [if_neg (by norm_num), if_pos (by norm_num)]
  have hb2 : riskLevel (0.4 : ℝ) = "low" := by
    unfold riskLevel
    rw [if_neg (by norm_num), if_neg (by norm_num)]
  refine ⟨?_, ?_, ?_, hb1, hb2⟩
  · unfold riskLevel
    split_ifs with h1 h2
    · constructor
      · intro _; exact h1
      · intro _; rfl
    · constructor
      · intro hc; exact absurd hc (by decide)
      · intro hq; exact absurd hq h1
    · constructor
      · intro hc; exact absurd hc (by decide)
      · intro hq; exact absurd hq h1
  · unfold riskLevel
    split_ifs with h1 h2
    · constructor
      · intro hc; exact absurd hc (by decide)
      · intro hq; exact absurd h1 (not_lt.mpr hq.2)
    · constructor
      · intro _; exact ⟨h2, le_of_not_lt h1⟩
      · intro _; rfl
    · constructor
      · intro hc; exact absurd hc (by decide)
      · intro hq; exact absurd hq.1 h2
  · unfold riskLevel
    split_ifs with h1 h2
    · constructor
      · intro hc; exact absurd hc (by decide)
      · intro hq; exact absurd hq (not_le.mpr (by linarith))
    · constructor
      · intro hc; exact absurd hc (by decide)
      · intro hq; exact absurd hq (not_le.mpr h2)
    · constructor
      · intro _; exact le_of_not_lt h2
      · intro _; rfl

/-! ### Seismicity feature pipeline (`run_inference`, `inference.py`) -/

/-- One row of the event dataframe.  The field `month` models the derived
column `df["time"].dt.to_period("M")` (calendar periods are linearly
ordered; they are carried here as integers). -/
structure Event where
  time : ℤ
  mag : ℚ
  place : String
  lat : ℚ
  lon : ℚ
  depth : ℚ
  month : ℤ
deriving DecidableEq

/-- Floor-division grid coordinate `df["grid_lat"] = (df["lat"] // 2) * 2`. -/
def gridLat (e : Event) : ℤ := ⌊e.lat / 2⌋ * 2

/-- Floor-division grid coordinate `df["grid_lon"] = (df["lon"] // 2) * 2`. -/
def gridLon (e : Event) : ℤ := ⌊e.lon / 2⌋ * 2

/-- The cell column `df["cell"]`: the pair behind the string key
`"{grid_lat},{grid_lon}"` (the formatting is injective on these pairs, so
grouping by the pair groups identically). -/
def cellKey (e : Event) : ℤ × ℤ := (gridLat e, gridLon e)

/-- Latest calendar month, `latest_month = df["month"].max()`. -/
def latestMonth (events : List Event) : ℤ :=
  ((events.map Event.month).maximum).unbot' 0

/-- The current-window frame `latest = df[df["month"] == latest_month]`. -/
def latestEvents (events : List Event) : List Event :=
  events.filter (fun e => decide (e.month = latestMonth events))

/-- The distinct cells of a frame: the grouping keys of `groupby("cell")`. -/
def cellsOf (l : List Event) : List (ℤ × ℤ) := (l.map cellKey).dedup

/-- The rows of one `groupby("cell")` group. -/
def cellEvents (l : List Event) (c : ℤ × ℤ) : List Event :=
  l.filter (fun e => decide (cellKey e = c))

/-- Arithmetic mean of a column. -/
def listMean (xs : List ℚ) : ℚ := xs.sum / xs.length

/-- Per-cell aggregate row of `features`: count, mean/max magnitude, mean
depth, and the first row's grid coordinates. -/
structure CellAgg where
  cell : ℤ × ℤ
  N : ℕ
  mean_mag : ℚ
  max_mag : ℚ
  mean_depth : ℚ
  lat : ℤ
  lon : ℤ
deriving DecidableEq

/-- The `latest.groupby("cell").agg(...)` row for one cell. -/
def cellAgg (l : List Event) (c : ℤ × ℤ) : CellAgg :=
  { cell := c
    N := (cellEvents l c).length
    mean_mag := listMean ((cellEvents l c).map Event.mag)
    max_mag := (((cellEvents l c).map Event.mag).maximum).unbot' 0
    mean_depth := listMean ((cellEvents l c).map Event.depth)
    lat := ((cellEvents l c).map gridLat).headD 0
    lon := ((cellEvents l c).map gridLon).headD 0 }

/-- The b-value column `latest.groupby("cell")["mag"].apply(b_value).values`,
aligned with `cellsOf`. -/
noncomputable def rawBVals (l : List Event) : List (Option ℝ) :=
  (cellsOf l).map (fun c => b_value ((cellEvents l c).map Event.mag))

/-- The defined (non-NaN) entries of a b-value column. -/
def definedVals (xs : List (Option ℝ)) : List ℝ := xs.filterMap id

/-- The batch mean `features["b_val"].mean()` (pandas `mean` skips NaN). -/
noncomputable def definedMean (xs : List (Option ℝ)) : ℝ :=
  (definedVals xs).sum / (definedVals xs).length

/-- The fill applied to one entry by
`features["b_val"].fillna(features["b_val"].mean())`: defined entries pass
through; an undefined entry receives the batch mean, which is itself
undefined (NaN, so `fillna` changes nothing) when no entry is defined. -/
noncomputable def fillValue (xs : List (Option ℝ)) (o : Option ℝ) : Option ℝ :=
  match o with
  | some x => some x
  | none => if (definedVals xs).length = 0 then none else some (definedMean xs)

/-- The imputed b-value column
`features["b_val"] = features["b_val"].fillna(features["b_val"].mean())`. -/
noncomputable def fillNa (xs : List (Option ℝ)) : List (Option ℝ) :=
  xs.map (fillValue xs)

/-- Magnitude-descending order used by
`latest.sort_values("mag", ascending=False)`. -/
def magGE (a b : Event) : Prop := b.mag ≤ a.mag

instance magGE_decidable : DecidableRel magGE := fun a b =>
  inferInstanceAs (Decidable (b.mag ≤ a.mag))

instance magGE_total : IsTotal Event magGE := ⟨fun a b => le_total b.mag a.mag⟩

instance magGE_trans : IsTrans Event magGE := ⟨fun _ _ _ h1 h2 => le_trans h2 h1⟩

/-- The map built from
`latest.sort_values("mag", ascending=False).drop_duplicates("cell")`: per
cell, the first row of the magnitude-descending sort that lies in the cell.
(The embedding's sort is a deterministic stable sort; pandas' default sort is
likewise deterministic on a fixed input.) -/
def notableFor (l : List Event) (c : ℤ × ℤ) : Option Event :=
  (List.insertionSort magGE l).find? (fun e => decide (cellKey e = c))

/-- A GeoJSON Point feature emitted for one raw event of the full window. -/
structure PointFeature where
  lon : ℚ
  lat : ℚ
  mag : ℚ
  depth : ℚ
  place : String
  time : ℤ
deriving DecidableEq

/-- The Point feature of one raw event. -/
def pointFeature (e : Event) : PointFeature :=
  ⟨e.lon, e.lat, e.mag, e.depth, e.place, e.time⟩

/-- The output of the core of `run_inference`: the per-cell aggregate rows
with their (imputed) b-values and notable events, plus one point per raw
event of the full 90-day window. -/
structure PipelineOut where
  cells : List CellAgg
  bvals : List (Option ℝ)
  notables : List (Option Event)
  points : List PointFeature

/-- The feature pipeline of `run_inference` after the dataframe columns
exist: aggregation over the latest-month frame, b-value imputation, notable
events, and the pass-through point features of the full window. -/
noncomputable def runPipeline (events : List Event) : PipelineOut :=
  { cells := (cellsOf (latestEvents events)).map (cellAgg (latestEvents events))
    bvals := fillNa (rawBVals (latestEvents events))
    notables := (cellsOf (latestEvents events)).map (notableFor (latestEvents events))
    points := events.map pointFeature }

/-- Pandas column access: a dataframe built from an empty record list has no
columns, so selecting any column raises `KeyError`. -/
def dfCol {α : Type} (rows : List Event) (name : String) (f : Event → α) :
    Except String (List α) :=
  if rows.isEmpty then Except.error ("KeyError: " ++ name)
  else Except.ok (rows.map f)

/-- The core of `run_inference` on the fetched events: the first column
access `df["time"]` (the `pd.to_datetime` line) fails on an empty frame;
otherwise the pipeline runs on the populated frame. -/
noncomputable def run_inference (events : List Event) : Except String PipelineOut :=
  match dfCol events ("time") Event.time with
  | Except.error e => Except.error e
  | Except.ok _ => Except.ok (runPipeline events)

/-- C8 (code bug): on an empty fetched event sequence, `run_inference` does
not produce an empty result set — the dataframe built from the empty record
list has no columns, so the first column access raises `KeyError: time`. -/
theorem run_inference_empty_raises :
    run_inference [] = Except.error ("KeyError: time") := rfl

/-- C6: the per-cell feature aggregation (count, mean/max magnitude, mean
depth, b-value, notable event) is computed from `latest` — exactly the
events whose month equals the maximum per-event month of the fetched set —
while every event of the full 90-day window is still emitted as a raw point
feature of the output. -/
theorem latest_month_aggregation (events : List Event) (h : events ≠ []) :
    run_inference events = Except.ok (runPipeline events) ∧
    (runPipeline events).cells
      = (cellsOf (latestEvents events)).map (cellAgg (latestEvents events)) ∧
    (runPipeline events).bvals = fillNa (rawBVals (latestEvents events)) ∧
    (runPipeline events).notables
      = (cellsOf (latestEvents events)).map (notableFor (latestEvents events)) ∧
    (runPipeline events).points = events.map pointFeature ∧
    (∀ e ∈ latestEvents events, e.month = latestMonth events) ∧
    (∀ e ∈ events, e.month = latestMonth events → e ∈ latestEvents events) ∧
    (∀ e ∈ events, e.month ≤ latestMonth events) := by
  have hok : run_inference events = Except.ok (runPipeline events) := by
    cases events with
    | nil => exact absurd rfl h
    | cons a t => rfl
  refine ⟨hok, rfl, rfl, rfl, rfl, ?_, ?_, ?_⟩
  · intro e he
    exact of_decide_eq_true (List.mem_filter.mp he).2
  · intro e he hm
    exact List.mem_filter.mpr ⟨he, decide_eq_true hm⟩
  · intro e he
    have hmem : e.month ∈ events.map Event.month := List.mem_map_of_mem Event.month he
    have hle := List.le_maximum_of_mem' hmem
    cases hmax : (events.map Event.month).maximum with
    | bot =>
        rw [hmax] at hle
        exact absurd hle (by simp)
    | coe m =>
        rw [hmax] at hle
        rw [latestMonth, hmax]
        exact_mod_cast hle

/-- A sample event used by the concrete witnesses. -/
def ev0 : Event := ⟨0, 5, "sample", 33, -118, 10, 0⟩

/-- Witness for `latest_month_aggregation` at a concrete one-event input. -/
theorem latest_month_aggregation_witness :
    (runPipeline [ev0]).points = [ev0].map pointFeature ∧
    (∀ e ∈ latestEvents [ev0], e.month = latestMonth [ev0]) :=
  ⟨(latest_month_aggregation [ev0] (by simp)).2.2.2.2.1,
   (latest_month_aggregation [ev0] (by simp)).2.2.2.2.2.1⟩

/-- C7: in a batch's b-value column, a cell whose b-value is undefined
receives the mean of the defined b-values of the batch (cross-cell mean
fill, not zero-fill); defined values pass through unchanged; the fill is
total, so an undefined b-value is never an error; and when every cell of the
batch is undefined the fill mean is itself undefined and the column is left
unchanged (no fallback). -/
theorem b_value_imputation_spec (xs : List (Option ℝ)) :
    (fillNa xs).length = xs.length ∧
    (∀ (i : ℕ) (v : ℝ), xs[i]? = some (some v) → (fillNa xs)[i]? = some (some v)) ∧
    (∀ i : ℕ, xs[i]? = some none → definedVals xs ≠ [] →
      (fillNa xs)[i]? = some (some (definedMean xs))) ∧
    ((∀ x ∈ xs, x = none) → fillNa xs = xs) := by
  refine ⟨by simp [fillNa], ?_, ?_, ?_⟩
  · intro i v hv
    rw [fillNa, List.getElem?_map, hv]
    rfl
  · intro i hv hd
    rw [fillNa, List.getElem?_map, hv]
    have hlen : ¬(definedVals xs).length = 0 := by
      simpa [List.length_eq_zero] using hd
    simp [fillValue, hlen]
  · intro hall
    have hnil : definedVals xs = [] := by
      rw [definedVals, List.filterMap_eq_nil_iff]
      intro a ha
      rw [hall a ha]
      rfl
    rw [fillNa]
    have hmap : ∀ o ∈ xs, fillValue xs o = id o := by
      intro o ho
      rw [hall o ho]
      simp [fillValue, hnil]
    rw [List.map_congr_left hmap, List.map_id]

/-- Witness for `b_value_imputation_spec` on a concrete batch with one
undefined entry. -/
theorem b_value_imputation_spec_witness :
    (fillNa [none, some 1, some 3])[0]?
      = some (some (definedMean [none, some 1, some 3])) :=
  (b_value_imputation_spec [none, some 1, some 3]).2.2.1 0 rfl
    (by simp [definedVals])

theorem find?_max_of_sorted (p : Event → Bool) :
    ∀ s : List Event, s.Sorted magGE → ∀ e, s.find? p = some e →
      ∀ x ∈ s, p x = true → x.mag ≤ e.mag := by
  intro s
  induction s with
  | nil =>
      intro _ e he
      simp at he
  | cons a t ih =>
      intro hs e hfind x hx hpx
      rcases List.sorted_cons.mp hs with ⟨hhead, htail⟩
      cases hpa : p a
      · rw [List.find?_cons_of_neg _ (by simp [hpa])] at hfind
        rcases List.mem_cons.mp hx with rfl | hxt
        · rw [hpx] at hpa
          cases hpa
        · exact ih htail e hfind x hxt hpx
      · rw [List.find?_cons_of_pos _ hpa] at hfind
        injection hfind with he
        subst he
        rcases List.mem_cons.mp hx with rfl | hxt
        · exact le_refl _
        · exact hhead x hxt

/-- C9: for every cell with at least one event in the current window, the
selected notable event belongs to the cell and has maximal magnitude there,
and it is exactly the first row of the magnitude-descending sort lying in
the cell — a deterministic (function-of-the-input) choice, identical on
every run over the same input. -/
theorem notable_event_spec (l : List Event) (c : ℤ × ℤ)
    (h : ∃ e ∈ l, cellKey e = c) :
    ∃ e, notableFor l c = some e ∧ e ∈ l ∧ cellKey e = c ∧
      (∀ x ∈ l, cellKey x = c → x.mag ≤ e.mag) ∧
      notableFor l c
        = (List.insertionSort magGE l).find? (fun x => decide (cellKey x = c)) := by
  have hperm := List.perm_insertionSort magGE l
  have hsort := List.sorted_insertionSort magGE l
  obtain ⟨e0, he0, hc0⟩ := h
  have hmem : e0 ∈ List.insertionSort magGE l := hperm.mem_iff.mpr he0
  have hsome : ((List.insertionSort magGE l).find?
      (fun x => decide (cellKey x = c))).isSome := by
    rw [List.find?_isSome]
    exact ⟨e0, hmem, decide_eq_true hc0⟩
  obtain ⟨e, he⟩ := Option.isSome_iff_exists.mp hsome
  refine ⟨e, he, ?_, ?_, ?_, rfl⟩
  · exact hperm.mem_iff.mp (List.mem_of_find?_eq_some he)
  · have hpe := List.find?_some he
    simpa using hpe
  · intro x hx hxc
    exact find?_max_of_sorted _ _ hsort e he x (hperm.mem_iff.mpr hx)
      (decide_eq_true hxc)

/-- Witness for `notable_event_spec` at a concrete one-event cell. -/
theorem notable_event_spec_witness :
    ∃ e, notableFor [ev0] (cellKey ev0) = some e ∧ e ∈ [ev0] ∧
      cellKey e = cellKey ev0 ∧
      (∀ x ∈ [ev0], cellKey x = cellKey ev0 → x.mag ≤ e.mag) ∧
      notableFor [ev0] (cellKey ev0)
        = (List.insertionSort magGE [ev0]).find?
            (fun x => decide (cellKey x = cellKey ev0)) :=
  notable_event_spec [ev0] (cellKey ev0) ⟨ev0, by simp, rfl⟩

/-! ### Region resolution (`REGIONS` in `inference.py`, `inference_api.py`) -/

/-- The bounding box `REGIONS["california"] = (32, 42, -125, -114)`,
as (minlat, maxlat, minlon, maxlon). -/
def californiaBox : ℚ × ℚ × ℚ × ℚ := (32, 42, -125, -114)

/-- The `REGIONS` dict of `inference.py`: region name to bounding box. -/
def REGIONS : List (String × (ℚ × ℚ × ℚ × ℚ)) :=
  [("california", californiaBox), ("west_coast", (32, 49, -125, -114))]

/-- Dict lookup `REGIONS.get(name)`. -/
def regionsGet (name : String) : Option (ℚ × ℚ × ℚ × ℚ) := REGIONS.lookup name

/-- Python's `str.lower()` on the ASCII range (the only characters occurring
in region names), character by character. -/
def pyLower (s : String) : String := String.mk (s.data.map Char.toLower)

/-- Python's `str.strip()`: drop leading and trailing whitespace. -/
def pyStrip (s : String) : String :=
  String.mk
    (((s.data.dropWhile Char.isWhitespace).reverse.dropWhile Char.isWhitespace).reverse)

/-- The bounding box chosen by `run_inference`:
`bbox = REGIONS.get(region.lower(), REGIONS["california"])`. -/
def resolveBBox (region : String) : ℚ × ℚ × ℚ × ℚ :=
  (regionsGet (pyLower region)).getD californiaBox

/-- The `/risk-data` endpoint's region normalization:
`region = (region or "california").strip().lower()`, then replaced by
`"california"` when not a key of `REGIONS`. -/
def apiNormalize (region : String) : String :=
  if (regionsGet (pyLower (pyStrip (if region = "" then "california" else region)))).isSome
  then pyLower (pyStrip (if region = "" then "california" else region))
  else "california"

/-- C10: inference never fails because a region is unknown — when the
lowercased name is not one of the supported regions (`"california"`,
`"west_coast"`), `run_inference`'s bounding-box lookup silently substitutes
the `"california"` box, and the `/risk-data` endpoint silently normalizes
any unknown region to `"california"` (so it always hands `run_inference` a
supported region) instead of signaling an error. -/
theorem unknown_region_fallback (region : String) :
    (regionsGet (pyLower region) = none → resolveBBox region = californiaBox) ∧
    (pyLower region ≠ "california" → pyLower region ≠ "west_coast" →
      regionsGet (pyLower region) = none) ∧
    resolveBBox ("california") = californiaBox ∧
    (regionsGet (apiNormalize region)).isSome = true ∧
    (regionsGet (pyLower (pyStrip (if region = "" then "california" else region))) = none →
      apiNormalize region = "california") := by
  refine ⟨?_, ?_, rfl, ?_, ?_⟩
  · intro h
    rw [resolveBBox, h]
    rfl
  · intro h1 h2
    have hb1 : (pyLower region == "california") = false := beq_eq_false_iff_ne.mpr h1
    have hb2 : (pyLower region == "west_coast") = false := beq_eq_false_iff_ne.mpr h2
    simp [regionsGet, REGIONS, List.lookup, hb1, hb2]
  · by_cases hs :
      (regionsGet (pyLower (pyStrip (if region = "" then "california" else region)))).isSome
        = true
    · rw [apiNormalize, if_pos hs]
      exact hs
    · rw [apiNormalize, if_neg hs]
      rfl
  · intro h
    rw [apiNormalize, if_neg (by simp [h])]

/-- Witness for `unknown_region_fallback` at a concrete unsupported region
name. -/
theorem unknown_region_fallback_witness :
    resolveBBox ("Atlantis") = californiaBox :=
  (unknown_region_fallback ("Atlantis")).1 rfl

end QuantumQuake
